import Mathlib

/-!
Verification of the hash-based traffic distributer (yschiang/hash_distributer).

The embedding follows src/distribute.go. Go `uint64` values are modeled as
naturals, Go `int` (64-bit) arithmetic as integers with explicit
twos-complement wraparound where the source can overflow. The two concrete
hash algorithms (crypto/md5 and github.com/cespare/xxhash) are external
library code, so they enter the model as function parameters; every claim
below is quantified over them.
-/

namespace HashDistributer

/-- The `Hasher` interface of src/distribute.go: `Hash(input string) uint64`,
modeled as a function from identifier strings to natural hash values. -/
abbrev Hasher : Type := String → Nat

/-- `XXHashHasher.Hash` delegates to the external library function
`xxhash.Sum64` (github.com/cespare/xxhash, outside this repository), which
the model takes as a parameter. -/
def XXHashHasher.Hash (xxhashSum64 : String → Nat) : Hasher :=
  xxhashSum64

/-- `MD5Hasher.Hash` computes `binary.BigEndian.Uint64(md5.Sum(input)[:8])`;
`crypto/md5` is external library code, so the composite is a parameter. -/
def MD5Hasher.Hash (md5First8 : String → Nat) : Hasher :=
  md5First8

/-- `var DefaultHasher Hasher = XXHashHasher{}` in src/distribute.go.
The adjacent comment in the source says MD5, but the initializer is the
xxHash strategy. -/
def DefaultHasher (xxhashSum64 : String → Nat) : Hasher :=
  XXHashHasher.Hash xxhashSum64

/-- Twos-complement wraparound of Go 64-bit `int` arithmetic: the value in
`[-2^63, 2^63)` congruent to `x` modulo `2^64`. -/
def wrap64 (x : Int) : Int :=
  (x + 2 ^ 63) % 2 ^ 64 - 2 ^ 63

/-- The hasher `RouteRequest` actually uses: `hasher[0]` when the variadic
argument is non-empty, otherwise the package-level `DefaultHasher`. -/
def chosenHasher (xxhashSum64 : String → Nat) (hasher : List Hasher) : Hasher :=
  match hasher with
  | [] => DefaultHasher xxhashSum64
  | h :: _ => h

/-- The cumulative-distribution loop of `RouteRequest` (src/distribute.go):
walk `distribution`, adding each `percentage` to `cumulative` with Go 64-bit
`int` wraparound, and return the first zero-based `index` at which
`int(hashValue) < cumulative`, or `none` when the scan exhausts the list. -/
def routeLoop (hashValue : Nat) : List Int → Int → Nat → Option Nat
  | [], _, _ => none
  | percentage :: rest, cumulative, index =>
    let c := wrap64 (cumulative + percentage)
    if (hashValue : Int) < c then some index
    else routeLoop hashValue rest c (index + 1)

/-- Go `fmt.Sprintf("%x", v)` for an unsigned value: lower-case hexadecimal
digits, no padding. -/
def hexString (v : Nat) : String :=
  String.mk (Nat.toDigits 16 v)

/-- `RouteRequest` of src/distribute.go: pick the hasher, reduce the hash of
`requestID` modulo 100, render that value in hex for diagnostics, and scan
the cumulative distribution for the first boundary above the reduced value. -/
def RouteRequest (xxhashSum64 : String → Nat) (requestID : String)
    (distribution : List Int) (hasher : List Hasher) : String × String :=
  let hashValue := chosenHasher xxhashSum64 hasher requestID % 100
  let hashString := hexString hashValue
  match routeLoop hashValue distribution 0 0 with
  | some index => ("Group " ++ toString (index + 1), hashString)
  | none => ("Unknown Group", hashString)

/-- The group label as a function of the reduced percentage and the
distribution alone. -/
def groupLabelOf (p : Nat) (distribution : List Int) : String :=
  match routeLoop p distribution 0 0 with
  | some index => "Group " ++ toString (index + 1)
  | none => "Unknown Group"

/-- The running cumulative sums the scan inspects, starting from
accumulator `c`, each step wrapped as Go `int` addition is. -/
def cumulFrom (c : Int) : List Int → List Int
  | [] => []
  | w :: rest => wrap64 (c + w) :: cumulFrom (wrap64 (c + w)) rest

/-- Spec-side routing: the first index, scanning the running cumulative sums
in order, at which `p < c`. -/
def firstCrossing (p : Nat) (distribution : List Int) : Option Nat :=
  (cumulFrom 0 distribution).findIdx? (fun c => decide ((p : Int) < c))

/-- When `x` already lies in the 64-bit signed range, wraparound is the
identity. -/
theorem wrap64_eq_self (x : Int) (h1 : -(2 ^ 63) ≤ x) (h2 : x < 2 ^ 63) :
    wrap64 x = x := by
  have h3 : (2 : Int) ^ 64 = 2 ^ 63 + 2 ^ 63 := by norm_num
  unfold wrap64
  rw [Int.emod_eq_of_lt (by linarith) (by linarith)]
  ring

/-- `RouteRequest` splits into the label of the reduced percentage and its
hex rendering. -/
theorem routeRequest_eq (xxh : String → Nat) (id : String)
    (dist : List Int) (hs : List Hasher) :
    RouteRequest xxh id dist hs =
      (groupLabelOf (chosenHasher xxh hs id % 100) dist,
       hexString (chosenHasher xxh hs id % 100)) := by
  unfold RouteRequest groupLabelOf
  cases h : routeLoop (chosenHasher xxh hs id % 100) dist 0 0 <;> simp [h]

/-- The imperative scan agrees with `findIdx?` over the running cumulative
sums, for any starting accumulator and index. -/
theorem routeLoop_eq_findIdx (p : Nat) :
    ∀ (dist : List Int) (c : Int) (i : Nat),
      routeLoop p dist c i =
        (cumulFrom c dist).findIdx? (fun x => decide ((p : Int) < x)) i
  | [], _, _ => rfl
  | w :: rest, c, i => by
    simp only [routeLoop, cumulFrom, List.findIdx?_cons]
    by_cases h : (p : Int) < wrap64 (c + w)
    · simp [h]
    · simp only [h, decide_eq_false, Bool.false_eq_true, if_false]
      exact routeLoop_eq_findIdx p rest (wrap64 (c + w)) (i + 1)

/-- A successful scan returns an index between the starting index and the
starting index plus the number of weights. -/
theorem routeLoop_some_bound (p : Nat) :
    ∀ (dist : List Int) (c : Int) (i j : Nat),
      routeLoop p dist c i = some j → i ≤ j ∧ j < i + dist.length
  | [], _, _, _, h => by simp [routeLoop] at h
  | w :: rest, c, i, j, h => by
    simp only [routeLoop] at h
    by_cases hc : (p : Int) < wrap64 (c + w)
    · rw [if_pos hc] at h
      injection h with hij
      simp only [List.length_cons]
      omega
    · rw [if_neg hc] at h
      have := routeLoop_some_bound p rest (wrap64 (c + w)) (i + 1) j h
      simp only [List.length_cons]
      omega

/-- For non-negative weights whose running total stays below `2 ^ 63`, the
scan exhausts exactly when the total cumulative value never exceeds the
reduced percentage. -/
theorem routeLoop_none_iff (p : Nat) :
    ∀ (dist : List Int) (c : Int) (i : Nat),
      (∀ w ∈ dist, 0 ≤ w) → 0 ≤ c → c ≤ (p : Int) → c + dist.sum < 2 ^ 63 →
      (routeLoop p dist c i = none ↔ c + dist.sum ≤ (p : Int))
  | [], c, i, _, _, hcp, _ => by simp [routeLoop, hcp]
  | w :: rest, c, i, hnn, hc0, hcp, hsum => by
    have hw : 0 ≤ w := hnn w (List.mem_cons_self w rest)
    have hrest : ∀ x ∈ rest, 0 ≤ x := fun x hx => hnn x (List.mem_cons_of_mem w hx)
    have hrsum : 0 ≤ rest.sum := List.sum_nonneg hrest
    have hsum' : c + w + rest.sum < 2 ^ 63 := by
      simp only [List.sum_cons] at hsum; linarith
    have hwrap : wrap64 (c + w) = c + w := by
      apply wrap64_eq_self
      · have : (0 : Int) ≤ 2 ^ 63 := by positivity
        linarith
      · linarith
    simp only [routeLoop, hwrap, List.sum_cons]
    by_cases hc : (p : Int) < c + w
    · rw [if_pos hc]
      constructor
      · intro h; exact absurd h (by simp)
      · intro h; exfalso; linarith
    · rw [if_neg hc]
      push_neg at hc
      have := routeLoop_none_iff p rest (c + w) (i + 1) hrest (by linarith) hc hsum'
      rw [this]
      constructor <;> intro h <;> linarith

/-- The label component of `RouteRequest` is the label of the reduced
percentage. -/
theorem routeRequest_fst (xxh : String → Nat) (id : String)
    (dist : List Int) (hs : List Hasher) :
    (RouteRequest xxh id dist hs).1 =
      groupLabelOf (chosenHasher xxh hs id % 100) dist := by
  rw [routeRequest_eq]

/-- The diagnostic component of `RouteRequest` is the hex rendering of the
reduced percentage. -/
theorem routeRequest_snd (xxh : String → Nat) (id : String)
    (dist : List Int) (hs : List Hasher) :
    (RouteRequest xxh id dist hs).2 =
      hexString (chosenHasher xxh hs id % 100) := by
  rw [routeRequest_eq]

/-- A produced group label never collides with the sentinel. -/
theorem group_label_ne_unknown (t : String) :
    "Group " ++ t ≠ "Unknown Group" := by
  intro h
  have h2 := congrArg String.data h
  rw [String.data_append] at h2
  have hg : ("Group " : String).data = 'G' :: ("roup " : String).data := rfl
  have hu : ("Unknown Group" : String).data =
      'U' :: ("nknown Group" : String).data := rfl
  rw [hg, hu, List.cons_append] at h2
  injection h2 with hc _
  exact absurd hc (by decide)

/-- With weights `[30, 30]`, every reduced percentage of at least 60 falls
through the scan. -/
theorem groupLabelOf_30_30 (q : Nat) (h : 60 ≤ q) :
    groupLabelOf q [30, 30] = "Unknown Group" := by
  have hnone := routeLoop_none_iff q [30, 30] 0 0 (by decide) le_rfl
    (by positivity) (by decide)
  have hrl : routeLoop q [30, 30] 0 0 = none := by
    apply hnone.mpr
    have hs : (0 : Int) + ([30, 30] : List Int).sum = 60 := by decide
    rw [hs]
    exact_mod_cast h
  simp [groupLabelOf, hrl]

/-- C1: for every identifier, weight list, and hash strategy, `RouteRequest`
computes the reduced percentage `p = Hash(identifier) mod 100`, a value in
`[0, 99]`, and returns the label `Group (index+1)` for the first index,
scanning the running cumulative sums of the weights in order, at which
`p` is strictly below the cumulative sum, with the sentinel
`Unknown Group` when no index qualifies. -/
theorem routeRequest_first_crossing (xxh : String → Nat) (requestID : String)
    (weights : List Int) (hs : List Hasher) :
    chosenHasher xxh hs requestID % 100 < 100 ∧
    RouteRequest xxh requestID weights hs =
      (match firstCrossing (chosenHasher xxh hs requestID % 100) weights with
       | some index => "Group " ++ toString (index + 1)
       | none => "Unknown Group",
       hexString (chosenHasher xxh hs requestID % 100)) := by
  refine ⟨Nat.mod_lt _ (by norm_num), ?_⟩
  rw [routeRequest_eq]
  unfold groupLabelOf firstCrossing
  rw [routeLoop_eq_findIdx]

/-- C2: with weights `[50, 50]` the strict-less-than tie-break gives the
boundary to the earlier group: a reduced percentage of 49 routes to
`Group 1` and 50 routes to `Group 2`. -/
theorem routeRequest_boundary_50_50 (xxh : String → Nat) (id : String)
    (hs : List Hasher) :
    (chosenHasher xxh hs id % 100 = 49 →
      (RouteRequest xxh id [50, 50] hs).1 = "Group 1") ∧
    (chosenHasher xxh hs id % 100 = 50 →
      (RouteRequest xxh id [50, 50] hs).1 = "Group 2") := by
  constructor <;> intro h <;> rw [routeRequest_fst, h] <;> decide

/-- Witness for C2 with strategies landing exactly on the boundary. -/
theorem routeRequest_boundary_50_50_witness :
    (RouteRequest (fun _ => 0) "k" [50, 50] [fun _ => 49]).1 = "Group 1" ∧
    (RouteRequest (fun _ => 0) "k" [50, 50] [fun _ => 50]).1 = "Group 2" :=
  ⟨(routeRequest_boundary_50_50 (fun _ => 0) "k" [fun _ => 49]).1 (by decide),
   (routeRequest_boundary_50_50 (fun _ => 0) "k" [fun _ => 50]).2 (by decide)⟩

/-- C3: routing is deterministic and sticky: two calls with identical
arguments return the identical pair, and over `N ≥ 1` repeated calls the
set of returned group labels has exactly one element. -/
theorem routeRequest_deterministic (xxh : String → Nat) (id : String)
    (dist : List Int) (hs : List Hasher) (N : Nat) (hN : N ≠ 0) :
    RouteRequest xxh id dist hs = RouteRequest xxh id dist hs ∧
    (List.replicate N (RouteRequest xxh id dist hs).1).toFinset.card = 1 := by
  refine ⟨rfl, ?_⟩
  rw [List.toFinset_replicate_of_ne_zero hN]
  simp

/-- Witness for C3 with three repeated calls. -/
theorem routeRequest_deterministic_witness :
    RouteRequest (fun _ => 7) "id-1" [50, 50] [] =
      RouteRequest (fun _ => 7) "id-1" [50, 50] [] ∧
    (List.replicate 3 (RouteRequest (fun _ => 7) "id-1" [50, 50] []).1).toFinset.card = 1 :=
  routeRequest_deterministic (fun _ => 7) "id-1" [50, 50] [] 3 (by decide)

/-- C4: with weights `[30, 30]` any reduced percentage of at least 60 falls
through to `Unknown Group`, and the empty weight list yields
`Unknown Group` for every identifier and strategy. -/
theorem routeRequest_fallback (xxh : String → Nat) (id : String)
    (hs : List Hasher) :
    (60 ≤ chosenHasher xxh hs id % 100 →
      (RouteRequest xxh id [30, 30] hs).1 = "Unknown Group") ∧
    (RouteRequest xxh id [] hs).1 = "Unknown Group" := by
  constructor
  · intro h
    rw [routeRequest_fst]
    exact groupLabelOf_30_30 _ h
  · rw [routeRequest_fst]
    rfl

/-- Witness for C4 with a strategy reducing to 61. -/
theorem routeRequest_fallback_witness :
    (RouteRequest (fun _ => 0) "k" [30, 30] [fun _ => 61]).1 = "Unknown Group" ∧
    (RouteRequest (fun _ => 0) "k" [] [fun _ => 61]).1 = "Unknown Group" :=
  ⟨(routeRequest_fallback (fun _ => 0) "k" [fun _ => 61]).1 (by decide),
   (routeRequest_fallback (fun _ => 0) "k" [fun _ => 61]).2⟩

/-- C5 counterexample: with weights `[50, -50]` and a strategy reducing to
10, `RouteRequest` returns `Group 1` even though the weight sum 0 is at
most 10, so the claimed equivalence of the sentinel with
`sum(weights) ≤ p` fails on a list with a negative entry. -/
theorem routeRequest_sum_iff_counterexample :
    ¬ (((RouteRequest (fun _ => 0) "a" [50, -50] [fun _ => 10]).1 = "Unknown Group") ↔
        ([50, -50] : List Int).sum ≤
          ((chosenHasher (fun _ => 0) [fun _ => 10] "a" % 100 : Nat) : Int)) := by
  decide

/-- C5 amended: for weight lists of non-negative entries whose sum stays
below `2 ^ 63` (no 64-bit overflow in the running total), `RouteRequest`
returns the sentinel `Unknown Group` exactly when `sum(weights) ≤ p`. -/
theorem routeRequest_unknown_iff_sum_le (xxh : String → Nat) (id : String)
    (weights : List Int) (hs : List Hasher)
    (hnn : ∀ w ∈ weights, 0 ≤ w) (hbound : weights.sum < 2 ^ 63) :
    ((RouteRequest xxh id weights hs).1 = "Unknown Group" ↔
      weights.sum ≤ ((chosenHasher xxh hs id % 100 : Nat) : Int)) := by
  rw [routeRequest_fst]
  have hnone := routeLoop_none_iff (chosenHasher xxh hs id % 100) weights 0 0
    hnn le_rfl (by positivity) (by simpa using hbound)
  rw [zero_add] at hnone
  constructor
  · intro hlab
    rw [← hnone]
    cases hrl : routeLoop (chosenHasher xxh hs id % 100) weights 0 0 with
    | none => rfl
    | some j =>
      exfalso
      simp only [groupLabelOf, hrl] at hlab
      exact group_label_ne_unknown _ hlab
  · intro hsum
    simp [groupLabelOf, hnone.mpr hsum]

/-- Witness for C5 amended: weights `[70, 30]` and a strategy reducing to
5 give a regular group, matching the sum condition failing. -/
theorem routeRequest_unknown_iff_sum_le_witness :
    ((RouteRequest (fun _ => 0) "a" [70, 30] [fun _ => 5]).1 = "Unknown Group" ↔
      ([70, 30] : List Int).sum ≤
        ((chosenHasher (fun _ => 0) [fun _ => 5] "a" % 100 : Nat) : Int)) :=
  routeRequest_unknown_iff_sum_le (fun _ => 0) "a" [70, 30] [fun _ => 5]
    (by decide) (by decide)

/-- C6: `RouteRequest` is total and never fails: every call, whatever the
weight list (empty, negative entries, not summing to 100), returns a
regular pair of strings, the sentinel outcome being an ordinary value
rather than an error path. -/
theorem routeRequest_total (xxh : String → Nat) (id : String)
    (weights : List Int) (hs : List Hasher) :
    ∃ groupLabel diagnosticHash : String,
      RouteRequest xxh id weights hs = (groupLabel, diagnosticHash) :=
  ⟨(RouteRequest xxh id weights hs).1, (RouteRequest xxh id weights hs).2, rfl⟩

/-- C7 counterexample: two strategies whose raw hashes 256 and 56 differ but
agree modulo 100 produce the same diagnostic string, and that string is not
the hexadecimal rendering of the raw hash 256: the code renders the reduced
value, not the raw hash. -/
theorem routeRequest_diagnostic_counterexample :
    (RouteRequest (fun _ => 0) "x" [100] [fun _ => 256]).2 =
      (RouteRequest (fun _ => 0) "x" [100] [fun _ => 56]).2 ∧
    (RouteRequest (fun _ => 0) "x" [100] [fun _ => 256]).2 ≠ hexString 256 := by
  decide

/-- C7 amended: the diagnostic component is the lower-case hexadecimal
rendering of the reduced value `Hash(id) mod 100`, and the routing decision
does not depend on it: the label is a function of the reduced percentage
and the weights alone. -/
theorem routeRequest_diagnostic_reduced (xxh : String → Nat) (id : String)
    (weights : List Int) (hs : List Hasher) :
    (RouteRequest xxh id weights hs).2 =
      hexString (chosenHasher xxh hs id % 100) ∧
    (RouteRequest xxh id weights hs).1 =
      groupLabelOf (chosenHasher xxh hs id % 100) weights := by
  rw [routeRequest_eq]
  exact ⟨rfl, rfl⟩

/-- C8: the group label is always either `Group n` for some
`1 ≤ n ≤ length(weights)` or the sentinel `Unknown Group`; no other label
shape is produced. -/
theorem routeRequest_label_shape (xxh : String → Nat) (id : String)
    (weights : List Int) (hs : List Hasher) :
    (∃ n, 1 ≤ n ∧ n ≤ weights.length ∧
      (RouteRequest xxh id weights hs).1 = "Group " ++ toString n) ∨
    (RouteRequest xxh id weights hs).1 = "Unknown Group" := by
  rw [routeRequest_fst]
  cases h : routeLoop (chosenHasher xxh hs id % 100) weights 0 0 with
  | none =>
    right
    simp [groupLabelOf, h]
  | some j =>
    left
    have hb := routeLoop_some_bound _ weights 0 0 j h
    exact ⟨j + 1, by omega, by omega, by simp [groupLabelOf, h]⟩

/-- C9: omitting the variadic hasher argument is the same as passing the
xxHash strategy explicitly (the process-wide default is xxHash, despite
the adjacent comment naming MD5), and only the first supplied hasher is
ever consulted. -/
theorem routeRequest_default_and_first (xxh : String → Nat) (id : String)
    (weights : List Int) :
    RouteRequest xxh id weights [] =
      RouteRequest xxh id weights [XXHashHasher.Hash xxh] ∧
    ∀ (h : Hasher) (rest : List Hasher),
      RouteRequest xxh id weights (h :: rest) =
        RouteRequest xxh id weights [h] :=
  ⟨rfl, fun _ _ => rfl⟩

/-- C10: the result depends on the identifier only through its reduced
percentage: any two strategies and identifiers agreeing modulo 100 yield
the identical pair for the same weights. -/
theorem routeRequest_depends_only_on_percentage (xxh1 xxh2 : String → Nat)
    (s1 s2 : Hasher) (id1 id2 : String) (weights : List Int)
    (h : s1 id1 % 100 = s2 id2 % 100) :
    RouteRequest xxh1 id1 weights [s1] = RouteRequest xxh2 id2 weights [s2] := by
  rw [routeRequest_eq, routeRequest_eq]
  have h2 : chosenHasher xxh1 [s1] id1 % 100 = chosenHasher xxh2 [s2] id2 % 100 := h
  rw [h2]

/-- Witness for C10: raw hashes 3 and 103 agree modulo 100 and give the
identical routing pair. -/
theorem routeRequest_depends_only_on_percentage_witness :
    RouteRequest (fun _ => 0) "a" [70, 30] [fun _ => 3] =
      RouteRequest (fun _ => 1) "b" [70, 30] [fun _ => 103] :=
  routeRequest_depends_only_on_percentage (fun _ => 0) (fun _ => 1)
    (fun _ => 3) (fun _ => 103) "a" "b" [70, 30] (by decide)

end HashDistributer
